import Mathlib

/-!
Shallow embedding of the nlt-365 reading proxy (src/index.ts):
an in-memory TTL cache (`Map<string, CacheEntry>` with the operations
`getCachedReading`, `setCachedReading`, `cache.clear()`), the upstream
fetch wrapper `fetchReading`, and the request dispatch of `serve`.

Time is modelled as a natural number of milliseconds (`Date.now()`), the
cache as an association list with unique keys mirroring the semantics of
a JavaScript `Map` (insertion order kept, `set` replaces in place,
`delete` removes the key, `size` is the number of entries), and the
upstream service as a function from the requested date to the response
it would return.  Mutation of the module-global `cache` becomes explicit
state passing: each operation returns the cache it leaves behind.
-/

namespace NLT365

/-- The `CacheEntry` interface of src/index.ts: payload text, creation
time in milliseconds, and the date string the entry represents. -/
structure CacheEntry where
  data : String
  timestamp : Nat
  date : String
deriving DecidableEq

/-- The module-global `cache : Map<string, CacheEntry>` as an association
list in insertion order. -/
abbrev Cache := List (String × CacheEntry)

/-- `CACHE_TTL_MS = 60 * 60 * 1000` (one hour). -/
def CACHE_TTL_MS : Nat := 60 * 60 * 1000

/-- `cache.get(key)`: first (and, for states reachable through `Map`,
only) entry stored under `key`. -/
def mapGet : Cache → String → Option CacheEntry
  | [], _ => none
  | p :: rest, k => if p.1 = k then some p.2 else mapGet rest k

/-- `cache.set(key, e)`: replace the entry under `key` in place, or
append a fresh one, as a JavaScript `Map` does. -/
def mapSet : Cache → String → CacheEntry → Cache
  | [], k, e => [(k, e)]
  | p :: rest, k, e => if p.1 = k then (k, e) :: rest else p :: mapSet rest k e

/-- `cache.delete(key)`: remove the entry stored under `key`. -/
def mapDelete : Cache → String → Cache
  | [], _ => []
  | p :: rest, k => if p.1 = k then rest else p :: mapDelete rest k

/-- A JavaScript `Map` never holds two entries with the same key; every
reachable cache state satisfies this. -/
def NodupKeys (c : Cache) : Prop := (c.map Prod.fst).Nodup

instance (c : Cache) : Decidable (NodupKeys c) :=
  inferInstanceAs (Decidable ((c.map Prod.fst).Nodup))

/-- `getCachedReading(date)` of src/index.ts, with `Date.now()` and the
global `cache` made explicit.  Returns the looked-up value together with
the cache state it leaves behind (the lookup deletes an expired entry). -/
def getCachedReading (now : Nat) (c : Cache) (date : String) : Option CacheEntry × Cache :=
  let key := date
  match mapGet c key with
  | none => (none, c)
  | some entry =>
    if now - entry.timestamp > CACHE_TTL_MS then
      (none, mapDelete c key)
    else
      (some entry, c)

/-- `setCachedReading(date, data)` of src/index.ts: unconditionally store
a freshly stamped entry under `date`. -/
def setCachedReading (now : Nat) (c : Cache) (date : String) (data : String) : Cache :=
  mapSet c date ⟨data, now, date⟩

/-- `Math.round(ms / 1000)` for a non-negative number of milliseconds:
the age rounded to whole seconds, halves rounding up. -/
def roundedSeconds (ms : Nat) : Nat := (ms + 500) / 1000

/-- One element of the `entries` array of the `/cache/stats` response. -/
structure StatsEntry where
  key : String
  date : String
  age : String
deriving DecidableEq

/-- The `/cache/stats` response body. -/
structure Stats where
  size : Nat
  ttlMs : Nat
  entries : List StatsEntry
deriving DecidableEq

/-- The body built by the `/cache/stats` handler of src/index.ts:
`size` is `cache.size`, `ttlMs` is the TTL constant, and every entry of
the map contributes `{key, date, age}` with
`age = Math.round((Date.now() - entry.timestamp) / 1000) + "s"`. -/
def cacheStats (now : Nat) (c : Cache) : Stats :=
  { size := c.length
    ttlMs := CACHE_TTL_MS
    entries := c.map fun p =>
      ⟨p.1, p.2.date, toString (roundedSeconds (now - p.2.timestamp)) ++ "s"⟩ }

/-- The part of an upstream `fetch` response that src/index.ts inspects:
the HTTP status, its text, and the body text.  `ok` is the Fetch-standard
derived flag: status in the range 200..299. -/
structure FetchResponse where
  status : Nat
  statusText : String
  body : String
deriving DecidableEq

/-- `response.ok` of the Fetch standard: success status range. -/
def FetchResponse.ok (r : FetchResponse) : Bool :=
  200 ≤ r.status && r.status ≤ 299

/-- The error message thrown by `fetchReading` on a non-success
response. -/
def upstreamErrorMessage (status : Nat) (statusText : String) : String :=
  "NLT API error: " ++ toString status ++ " " ++ statusText

/-- `fetchReading(date)` of src/index.ts, with the network made explicit:
given the response the upstream returns for the request, either the raw
body text or the thrown error's message. -/
def fetchReading (resp : FetchResponse) : Except String String :=
  if !resp.ok then
    Except.error (upstreamErrorMessage resp.status resp.statusText)
  else
    Except.ok resp.body

/-- A request as far as the dispatcher of src/index.ts looks at it:
method, pathname, and `url.searchParams.get("date")`. -/
structure Request where
  method : String
  pathname : String
  dateParam : Option String
deriving DecidableEq

/-- Line 102 of src/index.ts:
`url.searchParams.get("date") || getTodayDate()` — the parameter is
used only when present and non-empty (`""` is falsy), otherwise the
current UTC date `today` is used. -/
def resolveDate (dateParam : Option String) (today : String) : String :=
  match dateParam with
  | none => today
  | some d => if d = "" then today else d

/-- The responses the dispatcher of src/index.ts can produce, with their
distinguishing content (HTTP status, body, cache headers). -/
inductive ServerResponse where
  /-- 204 reply to an OPTIONS preflight. -/
  | noContent
  /-- 200 JSON from `/health`: status string and `cache.size`. -/
  | health (status : String) (cacheSize : Nat)
  /-- 200 text from `/reading`: body, `X-Cache` header, `X-Cache-Date`. -/
  | reading (body : String) (xCache : String) (xCacheDate : String)
  /-- JSON `{error}` reply with the given HTTP status (500 or 404). -/
  | errorJson (httpStatus : Nat) (error : String)
  /-- 200 JSON from `/cache/stats`. -/
  | stats (body : Stats)
  /-- 200 JSON from `POST /cache/clear`. -/
  | cleared (message : String)
deriving DecidableEq

/-- The `fetch(req)` dispatcher of src/index.ts (lines 81–174), with
`Date.now()`, `getTodayDate()`, the upstream service (as the response it
returns for each requested date) and the global `cache` made explicit.
Returns the response and the cache state left behind. -/
def serverFetch (now : Nat) (today : String) (upstream : String → FetchResponse)
    (req : Request) (c : Cache) : ServerResponse × Cache :=
  if req.method = "OPTIONS" then
    (ServerResponse.noContent, c)
  else if req.pathname = "/health" then
    (ServerResponse.health "ok" c.length, c)
  else if req.pathname = "/reading" then
    let date := resolveDate req.dateParam today
    let looked := getCachedReading now c date
    match looked.1 with
    | some cached => (ServerResponse.reading cached.data "HIT" cached.date, looked.2)
    | none =>
      match fetchReading (upstream date) with
      | Except.ok readingBody =>
          (ServerResponse.reading readingBody "MISS" date,
           setCachedReading now looked.2 date readingBody)
      | Except.error msg => (ServerResponse.errorJson 500 msg, looked.2)
  else if req.pathname = "/cache/stats" then
    (ServerResponse.stats (cacheStats now c), c)
  else if req.pathname = "/cache/clear" ∧ req.method = "POST" then
    (ServerResponse.cleared "Cache cleared", [])
  else
    (ServerResponse.errorJson 404 "Not found", c)

/-! Basic lemmas about the `Map` operations. -/

theorem mapGet_eq_none_of_not_mem (c : Cache) (k : String)
    (h : k ∉ c.map Prod.fst) : mapGet c k = none := by
  induction c with
  | nil => rfl
  | cons p rest ih =>
    simp only [List.map_cons, List.mem_cons] at h
    push_neg at h
    simp only [mapGet]
    rw [if_neg fun hp => h.1 hp.symm]
    exact ih h.2

theorem mapGet_mapDelete_self (c : Cache) (k : String) (h : NodupKeys c) :
    mapGet (mapDelete c k) k = none := by
  induction c with
  | nil => rfl
  | cons p rest ih =>
    simp only [NodupKeys, List.map_cons, List.nodup_cons] at h
    by_cases hp : p.1 = k
    · simp only [mapDelete, if_pos hp]
      exact mapGet_eq_none_of_not_mem rest k (hp ▸ h.1)
    · simp only [mapDelete, if_neg hp, mapGet, if_neg hp]
      exact ih h.2

theorem mapGet_mapDelete_ne (c : Cache) (k k2 : String) (h : k2 ≠ k) :
    mapGet (mapDelete c k2) k = mapGet c k := by
  induction c with
  | nil => rfl
  | cons p rest ih =>
    by_cases hp : p.1 = k2
    · simp only [mapDelete, if_pos hp, mapGet]
      rw [if_neg fun hpk => h (hp.symm.trans hpk)]
    · simp only [mapDelete, if_neg hp, mapGet]
      by_cases hpk : p.1 = k
      · rw [if_pos hpk, if_pos hpk]
      · rw [if_neg hpk, if_neg hpk]
        exact ih

theorem mapGet_mapSet_self (c : Cache) (k : String) (e : CacheEntry) :
    mapGet (mapSet c k e) k = some e := by
  induction c with
  | nil => simp [mapSet, mapGet]
  | cons p rest ih =>
    by_cases hp : p.1 = k
    · simp [mapSet, if_pos hp, mapGet]
    · simp only [mapSet, if_neg hp, mapGet, if_neg hp]
      exact ih

theorem mapGet_mapSet_ne (c : Cache) (k k2 : String) (e : CacheEntry) (h : k2 ≠ k) :
    mapGet (mapSet c k2 e) k = mapGet c k := by
  induction c with
  | nil => simp [mapSet, mapGet, if_neg h]
  | cons p rest ih =>
    by_cases hp : p.1 = k2
    · simp only [mapSet, if_pos hp, mapGet]
      rw [if_neg h, if_neg fun hpk => h (hp.symm.trans hpk)]
    · simp only [mapSet, if_neg hp, mapGet]
      by_cases hpk : p.1 = k
      · rw [if_pos hpk, if_pos hpk]
      · rw [if_neg hpk, if_neg hpk]
        exact ih

/-- C1: `get(key)` returns absent when the key is not stored; when the
key is stored and `now - timestamp > TTL` it deletes the entry (so the
key is afterwards absent) and returns absent; when the key is stored and
the age is within TTL it returns the stored entry itself and leaves the
cache exactly as it was — in particular the timestamp is not
refreshed. -/
theorem getCachedReading_contract (now : Nat) (c : Cache) (k : String)
    (hnd : NodupKeys c) :
    (mapGet c k = none → getCachedReading now c k = (none, c))
    ∧ (∀ e, mapGet c k = some e → CACHE_TTL_MS < now - e.timestamp →
        getCachedReading now c k = (none, mapDelete c k)
        ∧ mapGet (mapDelete c k) k = none)
    ∧ (∀ e, mapGet c k = some e → now - e.timestamp ≤ CACHE_TTL_MS →
        getCachedReading now c k = (some e, c)) := by
  refine ⟨fun h => by simp [getCachedReading, h], fun e he hexp => ?_, fun e he hle => ?_⟩
  · refine ⟨?_, mapGet_mapDelete_self c k hnd⟩
    simp only [getCachedReading, he]
    rw [if_pos hexp]
  · simp only [getCachedReading, he]
    rw [if_neg (not_lt.mpr hle)]

/-- Concrete one-entry cache used by the witnesses. -/
def entryA : CacheEntry := ⟨"reading", 100, "2025-06-15"⟩

/-- Concrete cache state holding `entryA` under its date. -/
def cacheA : Cache := [("2025-06-15", entryA)]

theorem getCachedReading_contract_witness :
    NodupKeys cacheA
    ∧ mapGet cacheA "2025-06-15" = some entryA
    ∧ entryA.timestamp ≤ 200 ∧ 200 - entryA.timestamp ≤ CACHE_TTL_MS
    ∧ getCachedReading 200 cacheA "2025-06-15" = (some entryA, cacheA) :=
  ⟨by decide, by decide, by decide, by decide,
    (getCachedReading_contract 200 cacheA "2025-06-15" (by decide)).2.2
      entryA (by decide) (by decide)⟩

/-- C2: any entry in the map is either within TTL or is removed by the
next `get` of its key (expiry only grows with time); and no other
operation removes it: a `get` of a different key leaves it in place, a
`put` of a different key leaves it in place, and the stats request never
touches the store. -/
theorem cache_lazy_expiry_invariant (now now2 : Nat) (c : Cache) (k k2 : String)
    (e : CacheEntry) (v : String) (today : String) (u : String → FetchResponse)
    (hnd : NodupKeys c) (he : mapGet c k = some e) :
    (CACHE_TTL_MS < now - e.timestamp → now ≤ now2 →
        mapGet (getCachedReading now2 c k).2 k = none)
    ∧ (k2 ≠ k → mapGet (getCachedReading now2 c k2).2 k = some e)
    ∧ (k2 ≠ k → mapGet (setCachedReading now2 c k2 v) k = some e)
    ∧ (serverFetch now2 today u ⟨"GET", "/cache/stats", none⟩ c).2 = c := by
  refine ⟨fun hexp hle => ?_, fun hne => ?_, fun hne => ?_, rfl⟩
  · have hexp2 : CACHE_TTL_MS < now2 - e.timestamp :=
      lt_of_lt_of_le hexp (Nat.sub_le_sub_right hle _)
    simp only [getCachedReading, he]
    rw [if_pos hexp2]
    exact mapGet_mapDelete_self c k hnd
  · cases hk2 : mapGet c k2 with
    | none => simpa only [getCachedReading, hk2] using he
    | some e2 =>
      simp only [getCachedReading, hk2]
      by_cases hexp : CACHE_TTL_MS < now2 - e2.timestamp
      · rw [if_pos hexp]
        exact (mapGet_mapDelete_ne c k k2 hne).trans he
      · rw [if_neg hexp]
        exact he
  · exact (mapGet_mapSet_ne c k k2 _ hne).trans he

theorem cache_lazy_expiry_invariant_witness :
    NodupKeys cacheA
    ∧ mapGet cacheA "2025-06-15" = some entryA
    ∧ CACHE_TTL_MS < 3600101 - entryA.timestamp
    ∧ mapGet (getCachedReading 3600101 cacheA "2025-06-15").2 "2025-06-15" = none :=
  ⟨by decide, by decide, by decide,
    (cache_lazy_expiry_invariant 3600101 3600101 cacheA "2025-06-15" "other"
        entryA "v" "2025-06-15" (fun _ => ⟨200, "OK", ""⟩)
        (by decide) (by decide)).1 (by decide) (le_refl _)⟩

/-- C4: `fetchReading` returns the raw body exactly when the upstream
status is a success (200..299), and fails with the error message carrying
the status code and status text exactly when it is not. -/
theorem fetchReading_contract (r : FetchResponse) :
    (fetchReading r = Except.ok r.body ↔ (200 ≤ r.status ∧ r.status ≤ 299))
    ∧ (fetchReading r = Except.error (upstreamErrorMessage r.status r.statusText)
        ↔ ¬(200 ≤ r.status ∧ r.status ≤ 299)) := by
  by_cases h : 200 ≤ r.status ∧ r.status ≤ 299
  · have hb : r.ok = true := by simp [FetchResponse.ok, h.1, h.2]
    simp [fetchReading, hb, h]
  · have hb : r.ok = false := by
      simp only [FetchResponse.ok, Bool.and_eq_false_iff, decide_eq_false_iff_not]
      omega
    simp [fetchReading, hb, h]

/-- C5: the stats body reports `size` equal to the raw map cardinality
and, for every entry currently in the map — expired or not — a record
whose age is `now - timestamp` rounded to whole seconds. -/
theorem cacheStats_contract (now : Nat) (c : Cache) :
    (cacheStats now c).size = c.length
    ∧ (cacheStats now c).ttlMs = CACHE_TTL_MS
    ∧ ∀ k e, (k, e) ∈ c →
        (⟨k, e.date, toString (roundedSeconds (now - e.timestamp)) ++ "s"⟩ : StatsEntry)
          ∈ (cacheStats now c).entries := by
  refine ⟨rfl, rfl, fun k e hmem => ?_⟩
  simp only [cacheStats]
  exact List.mem_map_of_mem _ hmem

theorem cacheStats_contract_witness :
    ("2025-06-15", entryA) ∈ cacheA
    ∧ (⟨"2025-06-15", entryA.date,
          toString (roundedSeconds (100 - entryA.timestamp)) ++ "s"⟩ : StatsEntry)
        ∈ (cacheStats 100 cacheA).entries :=
  ⟨by decide, (cacheStats_contract 100 cacheA).2.2 "2025-06-15" entryA (by decide)⟩

/-- C6: the `/cache/stats` request returns the snapshot and leaves the
store entirely unchanged — it evicts nothing and modifies no entry, even
an expired one (unlike `get`). -/
theorem statsRequest_no_eviction (now : Nat) (today : String)
    (u : String → FetchResponse) (c : Cache) (d : Option String) :
    serverFetch now today u ⟨"GET", "/cache/stats", d⟩ c
      = (ServerResponse.stats (cacheStats now c), c)
    ∧ ∀ k, mapGet (serverFetch now today u ⟨"GET", "/cache/stats", d⟩ c).2 k
        = mapGet c k :=
  ⟨rfl, fun _ => rfl⟩

/-- Upstream that always answers 503, used for concrete checks. -/
def upstream503 : String → FetchResponse :=
  fun _ => ⟨503, "Service Unavailable", "oops"⟩

/-- A cache holding one entry that is expired at time `3600001`. -/
def cacheExpired : Cache := [("2025-06-15", ⟨"old", 0, "2025-06-15"⟩)]

/-- C3 (amended): on a `/reading` cache miss whose upstream fetch fails,
the dispatcher returns a 500 response whose error message contains the
status, and no entry is written for that date — the resulting store is
exactly the store the cache lookup left behind, which equals the
original store whenever the date was absent from it (the lookup itself
may have evicted an expired entry for that date). -/
theorem reading_upstream_failure (now : Nat) (today : String)
    (u : String → FetchResponse) (d : String) (c : Cache)
    (hnd : NodupKeys c) (hne : d ≠ "")
    (hmiss : (getCachedReading now c d).1 = none)
    (hfail : (u d).ok = false) :
    serverFetch now today u ⟨"GET", "/reading", some d⟩ c
      = (ServerResponse.errorJson 500
           (upstreamErrorMessage (u d).status (u d).statusText),
         (getCachedReading now c d).2)
    ∧ (∃ a b, upstreamErrorMessage (u d).status (u d).statusText
        = a ++ toString (u d).status ++ b)
    ∧ mapGet (getCachedReading now c d).2 d = none
    ∧ (mapGet c d = none → (getCachedReading now c d).2 = c) := by
  have hdate : resolveDate (some d) today = d := by simp [resolveDate, hne]
  have hfetch : fetchReading (u d)
      = Except.error (upstreamErrorMessage (u d).status (u d).statusText) := by
    simp [fetchReading, hfail]
  refine ⟨?_, ?_, ?_, fun h0 => by simp [getCachedReading, h0]⟩
  · simp [serverFetch, hdate, hmiss, hfetch]
  · refine ⟨"NLT API error: ", " " ++ (u d).statusText, ?_⟩
    rw [upstreamErrorMessage, String.append_assoc]
  · cases hg : mapGet c d with
    | none => simp only [getCachedReading, hg]
    | some e =>
      simp only [getCachedReading, hg] at hmiss ⊢
      by_cases hexp : CACHE_TTL_MS < now - e.timestamp
      · rw [if_pos hexp]
        exact mapGet_mapDelete_self c d hnd
      · rw [if_neg hexp] at hmiss
        exact absurd hmiss (by simp)

theorem reading_upstream_failure_witness :
    NodupKeys ([] : Cache)
    ∧ "2025-06-15" ≠ ""
    ∧ (getCachedReading 0 ([] : Cache) "2025-06-15").1 = none
    ∧ (upstream503 "2025-06-15").ok = false
    ∧ serverFetch 0 "today" upstream503 ⟨"GET", "/reading", some "2025-06-15"⟩ []
        = (ServerResponse.errorJson 500
             (upstreamErrorMessage (upstream503 "2025-06-15").status
               (upstream503 "2025-06-15").statusText),
           (getCachedReading 0 ([] : Cache) "2025-06-15").2) :=
  ⟨by decide, by decide, by decide, by decide,
    (reading_upstream_failure 0 "today" upstream503 "2025-06-15" []
        (by decide) (by decide) (by decide) (by decide)).1⟩

/-- C3 as literally stated fails: a miss caused by an expired entry for
the requested date changes the store even though the upstream fetch
fails — the lookup evicts the expired entry, so the resulting store
differs from the original. -/
theorem reading_upstream_failure_claim_cex :
    (getCachedReading 3600001 cacheExpired "2025-06-15").1 = none
    ∧ (upstream503 "2025-06-15").ok = false
    ∧ (serverFetch 3600001 "2025-06-15" upstream503
          ⟨"GET", "/reading", some "2025-06-15"⟩ cacheExpired).2
        ≠ cacheExpired := by decide

/-- C7: two successive `put`s to the same key leave exactly the second
value, stamped with the second write's time and `date = key` — no
merging with the prior value — and a `get` within TTL of the second
write returns that entry. -/
theorem put_last_write_wins (now1 now2 now3 : Nat) (c : Cache) (k v1 v2 : String) :
    mapGet (setCachedReading now2 (setCachedReading now1 c k v1) k v2) k
      = some ⟨v2, now2, k⟩
    ∧ (now3 - now2 ≤ CACHE_TTL_MS →
        getCachedReading now3 (setCachedReading now2 (setCachedReading now1 c k v1) k v2) k
          = (some ⟨v2, now2, k⟩,
             setCachedReading now2 (setCachedReading now1 c k v1) k v2)) := by
  have hget : mapGet (setCachedReading now2 (setCachedReading now1 c k v1) k v2) k
      = some ⟨v2, now2, k⟩ := mapGet_mapSet_self _ k _
  refine ⟨hget, fun hle => ?_⟩
  simp only [getCachedReading, hget]
  rw [if_neg (not_lt.mpr hle)]

theorem put_last_write_wins_witness :
    100 - 50 ≤ CACHE_TTL_MS
    ∧ getCachedReading 100
        (setCachedReading 50 (setCachedReading 0 [] "2025-06-15" "a") "2025-06-15" "b")
        "2025-06-15"
      = (some ⟨"b", 50, "2025-06-15"⟩,
         setCachedReading 50 (setCachedReading 0 [] "2025-06-15" "a") "2025-06-15" "b") :=
  ⟨by decide, (put_last_write_wins 0 50 100 [] "2025-06-15" "a" "b").2 (by decide)⟩

/-- C8: a `put(k, v)` followed by a `get(k)` within the TTL window
returns an entry whose data is `v`. -/
theorem put_get_roundtrip (now now2 : Nat) (c : Cache) (k v : String)
    (h : now2 - now ≤ CACHE_TTL_MS) :
    ∃ e, (getCachedReading now2 (setCachedReading now c k v) k).1 = some e
      ∧ e.data = v := by
  have hget : mapGet (setCachedReading now c k v) k = some ⟨v, now, k⟩ :=
    mapGet_mapSet_self c k _
  refine ⟨⟨v, now, k⟩, ?_, rfl⟩
  simp only [getCachedReading, hget]
  rw [if_neg (not_lt.mpr h)]

theorem put_get_roundtrip_witness :
    (0 : Nat) - 0 ≤ CACHE_TTL_MS
    ∧ ∃ e, (getCachedReading 0 (setCachedReading 0 [] "d" "x") "d").1 = some e
        ∧ e.data = "x" :=
  ⟨by decide, put_get_roundtrip 0 0 [] "d" "x" (by decide)⟩

/-- C9: `POST /cache/clear` empties the store entirely; afterwards every
`get` returns absent and the stats size is 0. -/
theorem clear_contract (now : Nat) (today : String) (u : String → FetchResponse)
    (c : Cache) (d : Option String) (now2 now3 : Nat) (k : String) :
    serverFetch now today u ⟨"POST", "/cache/clear", d⟩ c
      = (ServerResponse.cleared "Cache cleared", [])
    ∧ (getCachedReading now2 ([] : Cache) k).1 = none
    ∧ (cacheStats now3 ([] : Cache)).size = 0 :=
  ⟨rfl, rfl, rfl⟩

/-- C10: a `/reading` request whose `date` parameter is the empty string
is handled exactly like one with the parameter absent: the empty string
is falsy in the `||` fallback, so the date resolves to today's date and
the empty string is never used as a cache key or sent upstream. -/
theorem emptyDateParam_defaults_today (now : Nat) (today : String)
    (u : String → FetchResponse) (c : Cache) :
    resolveDate (some "") today = today
    ∧ serverFetch now today u ⟨"GET", "/reading", some ""⟩ c
        = serverFetch now today u ⟨"GET", "/reading", none⟩ c :=
  ⟨rfl, rfl⟩

end NLT365
